import Mathlib

/-!
Shallow embedding of the TEF ESP32 memory-channel protocol client
(`tef_radio_comms.py`, plus the CSV export / differential-import workers of
`tef_memory_manager.py`).

Python strings are modelled as `List Char`; Python `None` becomes `Option`;
Python dictionaries holding channel data become structures whose fields are
`Option`-valued, mirroring `dict.get`.  Human-readable status messages are
modelled as Lean `String`s (they are only ever compared for equality).
-/

namespace Tef

/-! ### Python string primitives (on `List Char`) -/

/-- Whitespace characters removed by Python `str.strip()` (ASCII subset). -/
def isPySpace (c : Char) : Bool :=
  c = ' ' || c = '\t' || c = '\n' || c = '\x0d' || c = '\x0b' || c = '\x0c'

/-- Python `str.strip()`: drop whitespace from both ends. -/
def pyStrip (l : List Char) : List Char :=
  ((l.dropWhile isPySpace).reverse.dropWhile isPySpace).reverse

/-- Python `str.upper()` (ASCII case mapping, as used for PI codes). -/
def pyUpper (l : List Char) : List Char :=
  l.map Char.toUpper

/-- Python `str.split(sep)` for a single-character separator:
`"".split(',') = [""]`, `"a,,b".split(',') = ["a","","b"]`. -/
def pySplit (sep : Char) : List Char → List (List Char)
  | [] => [[]]
  | c :: rest =>
    if c = sep then [] :: pySplit sep rest
    else
      match pySplit sep rest with
      | [] => [[c]]
      | h :: t => (c :: h) :: t

/-- Python `str.startswith(p)`. -/
def pyStartsWith (l p : List Char) : Bool :=
  l.take p.length = p

/-! ### Decimal integers: Python `str(int)` and `int(str)` -/

/-- One decimal digit as a character (only applied to values `< 10`). -/
def digitCharM : Nat → Char
  | 0 => '0' | 1 => '1' | 2 => '2' | 3 => '3' | 4 => '4'
  | 5 => '5' | 6 => '6' | 7 => '7' | 8 => '8' | 9 => '9'
  | _ => '*'

/-- Fuel-driven most-significant-first decimal digits of a natural number. -/
def natReprAux : Nat → Nat → List Char
  | 0, _ => []
  | fuel + 1, n =>
    if n = 0 then [] else natReprAux fuel (n / 10) ++ [digitCharM (n % 10)]

/-- Decimal representation of a natural number (Python `str` on naturals). -/
def natRepr (n : Nat) : List Char :=
  if n = 0 then ['0'] else natReprAux (n + 1) n

/-- Python `str(i)` for an integer. -/
def pyIntRepr (i : Int) : List Char :=
  if i < 0 then '-' :: natRepr i.natAbs else natRepr i.natAbs

/-- Parse an all-digit, nonempty character list as a natural number. -/
def charsToNatM (l : List Char) : Option Nat :=
  if l = [] then none
  else if l.all Char.isDigit then
    some (l.foldl (fun a c => 10 * a + (c.toNat - 48)) 0)
  else none

/-- Python `int(str)` on its usual inputs: surrounding whitespace allowed,
optional sign, then decimal digits; failure is `none` (`ValueError`). -/
def parsePyInt (s : List Char) : Option Int :=
  match pyStrip s with
  | [] => none
  | c :: rest =>
    if c = '-' then (charsToNatM rest).map (fun n : Nat => -(n : Int))
    else if c = '+' then (charsToNatM rest).map (fun n : Nat => (n : Int))
    else (charsToNatM (c :: rest)).map (fun n : Nat => (n : Int))

/-! ### Round-trip lemmas for decimal integers -/

theorem digitCharM_isDigit {d : Nat} (h : d < 10) :
    (digitCharM d).isDigit = true := by
  interval_cases d <;> decide

theorem digitCharM_val {d : Nat} (h : d < 10) :
    (digitCharM d).toNat - 48 = d := by
  interval_cases d <;> decide

theorem digitCharM_not_space {d : Nat} (h : d < 10) :
    isPySpace (digitCharM d) = false := by
  interval_cases d <;> decide

theorem digitCharM_ne_dash {d : Nat} (h : d < 10) :
    digitCharM d ≠ '-' := by
  interval_cases d <;> decide

theorem digitCharM_ne_plus {d : Nat} (h : d < 10) :
    digitCharM d ≠ '+' := by
  interval_cases d <;> decide

theorem natReprAux_all_digits :
    ∀ fuel n c, c ∈ natReprAux fuel n → c.isDigit = true := by
  intro fuel
  induction fuel with
  | zero => intro n c h; simp [natReprAux] at h
  | succ f ih =>
    intro n c h
    unfold natReprAux at h
    by_cases hn : n = 0
    · simp [hn] at h
    · rw [if_neg hn] at h
      rcases List.mem_append.mp h with h1 | h2
      · exact ih _ _ h1
      · have : c = digitCharM (n % 10) := by simpa using h2
        subst this
        exact digitCharM_isDigit (Nat.mod_lt _ (by norm_num))

theorem natReprAux_foldl :
    ∀ fuel n A, n < 10 ^ fuel →
      (natReprAux fuel n).foldl (fun a c => 10 * a + (c.toNat - 48)) A
        = A * 10 ^ (natReprAux fuel n).length + n := by
  intro fuel
  induction fuel with
  | zero =>
    intro n A h
    interval_cases n
    simp [natReprAux]
  | succ f ih =>
    intro n A h
    by_cases hn : n = 0
    · subst hn; simp [natReprAux]
    · have hlt : n / 10 < 10 ^ f := by
        rw [Nat.div_lt_iff_lt_mul (by norm_num)]
        calc n < 10 ^ (f + 1) := h
        _ = 10 ^ f * 10 := by ring
      have step := ih (n / 10) A hlt
      unfold natReprAux
      rw [if_neg hn, List.foldl_append, step]
      rw [List.length_append]
      simp only [List.foldl_cons, List.foldl_nil, List.length_cons,
        List.length_nil]
      rw [digitCharM_val (Nat.mod_lt _ (by norm_num))]
      have : 10 * (A * 10 ^ (natReprAux f (n / 10)).length + n / 10) + n % 10
          = A * 10 ^ ((natReprAux f (n / 10)).length + (0 + 1))
            + (10 * (n / 10) + n % 10) := by ring
      rw [this, Nat.div_add_mod]

theorem natRepr_nonempty (n : Nat) : natRepr n ≠ [] := by
  unfold natRepr
  by_cases hn : n = 0
  · simp [hn]
  · rw [if_neg hn]
    unfold natReprAux
    rw [if_neg hn]
    simp

theorem natRepr_all_digits {n : Nat} {c : Char} (h : c ∈ natRepr n) :
    c.isDigit = true := by
  unfold natRepr at h
  by_cases hn : n = 0
  · rw [if_pos hn] at h; simp at h; subst h; decide
  · rw [if_neg hn] at h
    exact natReprAux_all_digits _ _ _ h

theorem charsToNatM_natRepr (n : Nat) : charsToNatM (natRepr n) = some n := by
  by_cases hn : n = 0
  · subst hn; decide
  · unfold charsToNatM
    rw [if_neg (natRepr_nonempty n)]
    have hd : (natRepr n).all Char.isDigit = true := by
      rw [List.all_eq_true]
      intro c hc
      exact natRepr_all_digits hc
    rw [if_pos hd]
    unfold natRepr
    rw [if_neg hn]
    have hb : n < 10 ^ (n + 1) := by
      calc n < 10 ^ n := Nat.lt_pow_self (by norm_num) n
      _ ≤ 10 ^ (n + 1) := Nat.pow_le_pow_right (by norm_num) (Nat.le_succ n)
    rw [natReprAux_foldl (n + 1) n 0 hb]
    simp

theorem dropWhile_eq_self_of_none {p : Char → Bool} {l : List Char}
    (h : ∀ c ∈ l, p c = false) : l.dropWhile p = l := by
  cases l with
  | nil => rfl
  | cons a t =>
    rw [List.dropWhile_cons, h a (List.mem_cons_self a t)]
    simp

theorem pyStrip_eq_self {l : List Char}
    (h : ∀ c ∈ l, isPySpace c = false) : pyStrip l = l := by
  unfold pyStrip
  rw [dropWhile_eq_self_of_none h]
  rw [dropWhile_eq_self_of_none (fun c hc => h c (List.mem_reverse.mp hc))]
  exact List.reverse_reverse l

theorem isDigit_not_pySpace {c : Char} (h : c.isDigit = true) :
    isPySpace c = false := by
  unfold isPySpace
  simp only [Bool.or_eq_false_iff, decide_eq_false_iff_not]
  refine ⟨⟨⟨⟨⟨?_, ?_⟩, ?_⟩, ?_⟩, ?_⟩, ?_⟩ <;>
    (intro hcontra; subst hcontra; exact absurd h (by decide))

theorem pyStrip_natRepr (n : Nat) : pyStrip (natRepr n) = natRepr n := by
  apply pyStrip_eq_self
  intro c hc
  exact isDigit_not_pySpace (natRepr_all_digits hc)

theorem pyStrip_pyIntRepr (i : Int) : pyStrip (pyIntRepr i) = pyIntRepr i := by
  unfold pyIntRepr
  by_cases hi : i < 0
  · rw [if_pos hi]
    apply pyStrip_eq_self
    intro c hc
    rcases List.mem_cons.mp hc with h1 | h2
    · subst h1; decide
    · exact isDigit_not_pySpace (natRepr_all_digits h2)
  · rw [if_neg hi]
    exact pyStrip_natRepr _

/-- Python `int(str(i)) = i`. -/
theorem parsePyInt_pyIntRepr (i : Int) : parsePyInt (pyIntRepr i) = some i := by
  unfold parsePyInt
  rw [pyStrip_pyIntRepr]
  unfold pyIntRepr
  by_cases hi : i < 0
  · rw [if_pos hi]
    show (if ('-' : Char) = '-' then
        (charsToNatM (natRepr i.natAbs)).map (fun n : Nat => -(n : Int))
      else if ('-' : Char) = '+' then
        (charsToNatM (natRepr i.natAbs)).map (fun n : Nat => (n : Int))
      else (charsToNatM ('-' :: natRepr i.natAbs)).map (fun n : Nat => (n : Int)))
      = some i
    rw [if_pos rfl, charsToNatM_natRepr]
    simp only [Option.map_some']
    congr 1
    omega
  · rw [if_neg hi]
    have hne : natRepr i.natAbs ≠ [] := natRepr_nonempty _
    cases hrep : natRepr i.natAbs with
    | nil => exact absurd hrep hne
    | cons c t =>
      have hcd : c.isDigit = true := by
        apply natRepr_all_digits (n := i.natAbs)
        rw [hrep]; exact List.mem_cons_self c t
      have hc1 : c ≠ '-' := by
        intro h; subst h; revert hcd; decide
      have hc2 : c ≠ '+' := by
        intro h; subst h; revert hcd; decide
      have hv := charsToNatM_natRepr i.natAbs
      rw [hrep] at hv
      show (if c = '-' then (charsToNatM t).map (fun n : Nat => -(n : Int))
        else if c = '+' then (charsToNatM t).map (fun n : Nat => (n : Int))
        else (charsToNatM (c :: t)).map (fun n : Nat => (n : Int))) = some i
      rw [if_neg hc1, if_neg hc2, hv]
      simp only [Option.map_some']
      congr 1
      omega

/-! ### Protocol constants (`tef_radio_comms.py` top level) -/

/-- `S_RETURN_CODES` dictionary: bit index to documented condition string. -/
def S_RETURN_CODES : Nat → Option String
  | 0 => some "Frequency out of range"
  | 1 => some "Memory channel out of range"
  | 2 => some "Bandwidth out of range"
  | 3 => some "Mono/auto stereo out of range"
  | 4 => some "Memory channel 1 can\x27t be set to skip"
  | 5 => some "Incorrect PI code"
  | 6 => some "Reserved (X)"
  | 7 => some "All ok, channel stored"
  | _ => none

/-- Base-2 digits, most significant first (fuel-driven). -/
def binReprAux : Nat → Nat → List Char
  | 0, _ => []
  | fuel + 1, n =>
    if n = 0 then [] else binReprAux fuel (n / 2) ++ [if n % 2 = 1 then '1' else '0']

/-- Python `f"{code:08b}"`: binary, zero-padded to at least 8 digits. -/
def pyBinFmt8 (n : Nat) : String :=
  let l := if n = 0 then ['0'] else binReprAux (n + 1) n
  String.mk (List.replicate (8 - l.length) '0' ++ l)

/-! ### Data model -/

/-- One parsed channel dictionary.  Fields are `Option`-valued to mirror
Python `dict.get` (absent key / `None` value are both `none`). -/
structure ChannelRec where
  channel : Option Int := none
  freq_khz : Option Int := none
  bandwidth_code : Option Int := none
  mono_stereo_code : Option Int := none
  pi : Option (List Char) := none
  ps : Option (List Char) := none
deriving DecidableEq

/-- The `config_data` dictionary built by `read_configuration`. -/
structure ConfigData where
  radio_model_id : Option (List Char) := none
  version : Option (List Char) := none
  memory_positions : Option Int := none
  skip_frequency_value : Option Int := none
  fm_offset_khz : Option Int := none
  am_range_khz : Option (Int × Int) := none
  fm_range_khz : Option (Int × Int) := none
  channels : List ChannelRec := []
deriving DecidableEq

/-- Session state of a `TEF_ESP32_Radio` instance: the open/closed serial
handle and the cached `config` / `max_channels` / `skip_freq_value`.
The GUI stores the same configuration object in `radio_config`
(`self.radio_config = config` after `radio.read_configuration()`), so a
single `config` field models both. -/
structure RadioState where
  connected : Bool := true
  config : Option ConfigData := none
  max_channels : Option Int := none
  skip_freq_value : Option Int := none
deriving DecidableEq

/-! ### Response Interpreter (`interpret_s_response`, lines 212-243) -/

/-- `interpret_s_response`: decode an `S` response bitmask into messages.
The Python guard `isinstance(code, int)` always holds here (`code : Nat`,
status codes are byte values parsed from the wire). -/
def interpret_s_response (code : Nat) : List String :=
  let messages : List String :=
    if code &&& (1 <<< 7) ≠ 0 then [(S_RETURN_CODES 7).getD ""] else []
  let messages := (List.range 7).foldl
    (fun acc i =>
      if code &&& (1 <<< i) ≠ 0 then
        match S_RETURN_CODES i with
        | some m =>
          if ¬ (i = 7 ∧ code &&& (1 <<< 7) ≠ 0) then acc ++ [m] else acc
        | none => acc ++ ["Unknown error bit " ++ toString i ++ " set."]
      else acc)
    messages
  if messages = [] then
    if code = 0 then ["No status bits set (Code 0)"]
    else ["Unknown response code: " ++ toString code ++ " (Binary: "
            ++ pyBinFmt8 code ++ ")"]
  else messages

/-- The success flag computed by `write_channel` from the return code
(line 449: `success = bool(return_code & (1 << 7))`). -/
def s_response_success (code : Nat) : Bool :=
  code &&& (1 <<< 7) ≠ 0

/-! ### Skip-State Resolver (`is_channel_skipped`, lines 358-384) -/

/-- `is_channel_skipped(ch_num, channel_data)`. -/
def is_channel_skipped (st : RadioState) (ch_num : Int)
    (channel_data : Option ChannelRec) : Bool :=
  match st.config with
  | none => false
  | some cfg =>
    -- `not self.config.get("channels")`: empty channel list is falsy
    if cfg.channels.isEmpty then false
    else
      let cd := match channel_data with
        | some d => some d
        | none => cfg.channels.find? (fun c => c.channel = some ch_num)
      match cd with
      | none => false
      | some d =>
        match d.freq_khz with
        | none => false
        | some f =>
          match st.skip_freq_value with
          | some v => f = v
          | none => f = 0

/-! ### Channel Writer (`write_channel`, lines 386-463) -/

/-- The test `(freq_khz == 0) or (self.skip_freq_value is not None and
freq_khz == self.skip_freq_value)`, shared verbatim by `write_channel`
(line 411) and the CSV import worker (lines 2468, 2520, 2541). -/
def is_skip_frequency (st : RadioState) (freq_khz : Int) : Bool :=
  freq_khz = 0 || (match st.skip_freq_value with
    | some v => freq_khz = v
    | none => false)

/-- `f"{self.max_channels or '?'}"`: `None` and `0` are falsy. -/
def maxChannelsDisp (st : RadioState) : String :=
  match st.max_channels with
  | some m => if m ≠ 0 then toString m else "?"
  | none => "?"

/-- Either a validation rejection before any serial I/O, or the encoded
`S` command handed to `_send_command`. -/
inductive WriteOutcome where
  | reject (msg : String)
  | send (cmd : List Char)
deriving DecidableEq

/-- `write_channel` through command construction and the `_send_command`
call (the claims under verification concern the validation phase and the
bytes sent; the response-decoding tail needs serial input).  `.reject m`
is a `return False, [m]` taken before any byte is written. -/
def write_channel (st : RadioState) (ch_num freq_khz bandwidth_code
    mono_stereo_code : Int) (pi ps : List Char) : WriteOutcome :=
  if ¬ st.connected then .reject "ERROR: Not connected."
  else if ch_num < 1 || (match st.max_channels with
      | some m => m ≠ 0 && ch_num > m
      | none => false) then
    .reject ("Invalid channel number (1-" ++ maxChannelsDisp st ++ ").")
  else if freq_khz < 0 then .reject "Invalid frequency (must be >= 0 kHz)."
  else if ch_num = 1 ∧ is_skip_frequency st freq_khz then
    .reject "ERROR: Channel 1 cannot be set to skip."
  else if bandwidth_code < 0 then .reject "Invalid bandwidth code."
  else if ¬ (mono_stereo_code = 0 ∨ mono_stereo_code = 1) then
    .reject "Invalid mono/stereo code (must be 0 or 1)."
  else
    let pi_upper := (pyUpper pi).take 4
    let ps_trunc := ps.take 8
    .send ('S' :: pyIntRepr ch_num ++ [','] ++ pyIntRepr freq_khz ++ [',']
      ++ pyIntRepr bandwidth_code ++ [','] ++ pyIntRepr mono_stereo_code
      ++ [','] ++ pi_upper ++ [','] ++ ps_trunc)

/-! ### Configuration Reader (`read_configuration`, lines 245-356)

The serial side is modelled as the sequence of `_read_line` results: each
element is `some line` (a decoded, stripped line) or `none` (timeout or
read error); an exhausted list also reads as `none`.  Status and progress
callbacks are not modelled except for the one warning the claims are
about: the Boolean paired with the result records whether the
"Read timeout before receiving all expected channels" warning was issued.
The session-field mirrors (`self.max_channels`, `self.skip_freq_value`)
are set from the same parses that fill `memory_positions` /
`skip_frequency_value` and carry no extra information. -/

/-- Mutable state of the read loop: the accumulating `config_data`, the
`lines_read` counter and the `expected_channels` variable. -/
structure ReadLoopState where
  cfg : ConfigData := {}
  linesRead : Nat := 0
  expected : Option Int := none
deriving DecidableEq

/-- Does the line start with one of the seven `x:` dispatch keys? -/
def hasConfigKey (line : List Char) : Bool :=
  pyStartsWith line ['r', ':'] || pyStartsWith line ['v', ':'] ||
  pyStartsWith line ['m', ':'] || pyStartsWith line ['s', ':'] ||
  pyStartsWith line ['o', ':'] || pyStartsWith line ['a', ':'] ||
  pyStartsWith line ['f', ':']

/-- The channel-row `try` block: six comma fields, four leading integers,
empty `pi`/`ps` become `None`; any `int` failure is a warning (`none`). -/
def parseChannelFields : List (List Char) → Option ChannelRec
  | [p0, p1, p2, p3, p4, p5] =>
    (match parsePyInt p0, parsePyInt p1, parsePyInt p2, parsePyInt p3 with
     | some c, some f, some b, some m =>
       some { channel := some c, freq_khz := some f, bandwidth_code := some b,
              mono_stereo_code := some m,
              pi := if p4 ≠ [] then some p4 else none,
              ps := if p5 ≠ [] then some p5 else none }
     | _, _, _, _ => none)
  | _ => none

/-- One iteration of the `elif` dispatch chain on a received line (the
`lines_read += 1` update is done by the loop).  Branches that only issue
a warning leave the state unchanged. -/
def processConfigLine (st : ReadLoopState) (line : List Char) : ReadLoopState :=
  if pyStartsWith line ['r', ':'] then
    { st with cfg := { st.cfg with radio_model_id := some (pyStrip (line.drop 2)) } }
  else if pyStartsWith line ['v', ':'] then
    { st with cfg := { st.cfg with version := some (pyStrip (line.drop 2)) } }
  else if pyStartsWith line ['m', ':'] then
    match parsePyInt (line.drop 2) with
    | some val =>
      { st with cfg := { st.cfg with memory_positions := some val },
                expected := some val }
    | none => st
  else if pyStartsWith line ['s', ':'] then
    match parsePyInt (line.drop 2) with
    | some val =>
      { st with cfg := { st.cfg with skip_frequency_value := some val } }
    | none => st
  else if pyStartsWith line ['o', ':'] then
    -- the source splits the stripped remainder on a colon, not a comma
    match pySplit ':' (pyStrip (line.drop 2)) with
    | [] => st
    | p0 :: _ =>
      match parsePyInt p0 with
      | some v => { st with cfg := { st.cfg with fm_offset_khz := some v } }
      | none => st
  else if pyStartsWith line ['a', ':'] then
    match pySplit ',' (pyStrip (line.drop 2)) with
    | p0 :: p1 :: _ =>
      (match parsePyInt p0, parsePyInt p1 with
       | some v0, some v1 =>
         { st with cfg := { st.cfg with am_range_khz := some (v0, v1) } }
       | _, _ => st)
    | _ => st
  else if pyStartsWith line ['f', ':'] then
    match pySplit ',' (pyStrip (line.drop 2)) with
    | p0 :: p1 :: _ =>
      (match parsePyInt p0, parsePyInt p1 with
       | some v0, some v1 =>
         { st with cfg := { st.cfg with fm_range_khz := some (v0, v1) } }
       | _, _ => st)
    | _ => st
  else
    match parseChannelFields (pySplit ',' line) with
    | some rec =>
      { st with cfg := { st.cfg with channels := st.cfg.channels ++ [rec] } }
    | none => st

/-- `expected_channels is not None and len(channels) < expected_channels`. -/
def partialTimeout (st : ReadLoopState) : Bool :=
  match st.expected with
  | some e => (st.cfg.channels.length : Int) < e
  | none => false

/-- The `line is None` arm of the loop: warn and keep the partial result,
hard-fail if nothing was ever read, else just stop. -/
def timeoutResult (st : ReadLoopState) : Option ConfigData × Bool :=
  if partialTimeout st then (some st.cfg, true)
  else if st.linesRead = 0 then (none, false)
  else (some st.cfg, false)

/-- `len(config_data["channels"]) >= expected_channels` (with a declared
count); triggers the final 0.2 s drain read and the break. -/
def configComplete (st : ReadLoopState) : Bool :=
  match st.expected with
  | some e => e ≤ (st.cfg.channels.length : Int)
  | none => false

/-- The `while True` read loop.  The drain read consumed on completion
does not affect the result. -/
def readConfigLoop : ReadLoopState → List (Option (List Char)) →
    Option ConfigData × Bool
  | st, [] => timeoutResult st
  | st, none :: _ => timeoutResult st
  | st, some line :: rest =>
    let st' := processConfigLine { st with linesRead := st.linesRead + 1 } line
    if configComplete st' then (some st'.cfg, false)
    else readConfigLoop st' rest

/-- `read_configuration` given the stream of `_read_line` results; the
Boolean records whether the partial-timeout warning was issued. -/
def read_configuration (stream : List (Option (List Char))) :
    Option ConfigData × Bool :=
  readConfigLoop {} stream

/-- A line's contribution to the channel list: channel rows are lines
carrying none of the seven dispatch keys whose six comma fields parse. -/
def lineChannel (line : List Char) : Option ChannelRec :=
  if hasConfigKey line then none
  else parseChannelFields (pySplit ',' line)

/-! ### Spec-side renderings used by refinement-style claims -/

/-- Claim C8's reading of the `o:` dispatch: the integer parsed from the
first comma-separated field of the line's remainder. -/
def claim_fmOffset (line : List Char) : Option Int :=
  match pySplit ',' (pyStrip (line.drop 2)) with
  | [] => none
  | p0 :: _ => parsePyInt p0

/-- Skip-State Resolver exactly as claim C6 words it: false if no
configuration loaded, or the (explicit or looked-up) record is absent, or
its `freqKhz` is absent; otherwise compare `freqKhz` with the skip value
if known, else with literal 0. -/
def claim_isSkipped (st : RadioState) (ch_num : Int)
    (channel_data : Option ChannelRec) : Bool :=
  match st.config with
  | none => false
  | some cfg =>
    let resolved := match channel_data with
      | some d => some d
      | none => cfg.channels.find? (fun c => c.channel = some ch_num)
    match resolved with
    | none => false
    | some d =>
      match d.freq_khz with
      | none => false
      | some f =>
        match st.skip_freq_value with
        | some v => f = v
        | none => f = 0

/-- Claim C6 amended: additionally false when the loaded configuration's
channel list is empty (the code treats an empty `channels` list as falsy
even when a record is passed explicitly). -/
def amended_isSkipped (st : RadioState) (ch_num : Int)
    (channel_data : Option ChannelRec) : Bool :=
  match st.config with
  | none => false
  | some cfg =>
    if cfg.channels = [] then false
    else claim_isSkipped st ch_num channel_data

end Tef

namespace Tef

set_option maxRecDepth 10000 in
/-- Claim C2: for every 8-bit status code, the success flag is true iff
bit 7 is set; the message list contains "All ok, channel stored" iff bit 7
is set, plus the documented failure message for every set bit among bits
0-6; code 0 is reported specially; code 133 yields success and exactly the
three listed messages (as a permutation, i.e. regardless of order). -/
theorem claim_C2 :
    (∀ code : Nat, code < 256 →
      (s_response_success code = true ↔ code.testBit 7 = true) ∧
      ("All ok, channel stored" ∈ interpret_s_response code ↔
        code.testBit 7 = true) ∧
      (∀ i : Nat, i < 7 →
        ((S_RETURN_CODES i).getD "" ∈ interpret_s_response code ↔
          code.testBit i = true)) ∧
      (code = 0 → interpret_s_response code = ["No status bits set (Code 0)"])) ∧
    s_response_success 133 = true ∧
    List.Perm (interpret_s_response 133)
      ["All ok, channel stored", "Bandwidth out of range",
       "Frequency out of range"] := by
  refine ⟨?_, ?_, ?_⟩ <;> decide

/-- Witness for C2: instantiated at the concrete code 133. -/
theorem claim_C2_witness :
    (133 : Nat) < 256 ∧
    (s_response_success 133 = true ↔ (133 : Nat).testBit 7 = true) :=
  ⟨by decide, (claim_C2.1 133 (by decide)).1⟩

end Tef

namespace Tef

theorem data_append (a b : String) : (a ++ b).data = a.data ++ b.data := by
  cases a; cases b; rfl

/-- The channel-range rejection message differs from any string whose
ninth character is not `c`, whatever the formatted bound is. -/
theorem chanMsg_ne (s t : String) (h : t.data[8]? ≠ some 'c') :
    ("Invalid channel number (1-" ++ s ++ ").") ≠ t := by
  intro heq
  apply h
  rw [← heq]
  rw [data_append, data_append]
  have hlen : ("Invalid channel number (1-".data).length = 26 := by decide
  rw [List.getElem?_append, if_pos (by rw [List.length_append, hlen]; omega)]
  rw [List.getElem?_append, if_pos (by rw [hlen]; omega)]
  decide

end Tef

namespace Tef

/-- Claim C4: each of the six `write_channel` validation failures fires
before any I/O with its own distinct message; earlier checks take
precedence, so each conjunct assumes the preceding checks pass.  A
`.reject` outcome is by construction a return before `_send_command`. -/
theorem claim_C4 :
    (∀ st ch f bw ms pi ps, st.connected = false →
      write_channel st ch f bw ms pi ps = .reject "ERROR: Not connected.") ∧
    (∀ st ch f bw ms pi ps m,
      st.connected = true → st.max_channels = some m → 1 ≤ m →
      (ch < 1 ∨ ch > m) →
      write_channel st ch f bw ms pi ps
        = .reject ("Invalid channel number (1-" ++ maxChannelsDisp st ++ ").")) ∧
    (∀ st ch f bw ms pi ps, st.connected = true → 1 ≤ ch →
      (∀ m, st.max_channels = some m → ch ≤ m) → f < 0 →
      write_channel st ch f bw ms pi ps
        = .reject "Invalid frequency (must be >= 0 kHz).") ∧
    (∀ st f bw ms pi ps, st.connected = true →
      (∀ m, st.max_channels = some m → 1 ≤ m) → 0 ≤ f →
      is_skip_frequency st f = true →
      write_channel st 1 f bw ms pi ps
        = .reject "ERROR: Channel 1 cannot be set to skip.") ∧
    (∀ st ch f bw ms pi ps, st.connected = true → 1 ≤ ch →
      (∀ m, st.max_channels = some m → ch ≤ m) → 0 ≤ f →
      ¬(ch = 1 ∧ is_skip_frequency st f = true) → bw < 0 →
      write_channel st ch f bw ms pi ps = .reject "Invalid bandwidth code.") ∧
    (∀ st ch f bw ms pi ps, st.connected = true → 1 ≤ ch →
      (∀ m, st.max_channels = some m → ch ≤ m) → 0 ≤ f →
      ¬(ch = 1 ∧ is_skip_frequency st f = true) → 0 ≤ bw →
      ms ≠ 0 → ms ≠ 1 →
      write_channel st ch f bw ms pi ps
        = .reject "Invalid mono/stereo code (must be 0 or 1).") ∧
    (∀ st : RadioState,
      [ "ERROR: Not connected.",
        "Invalid channel number (1-" ++ maxChannelsDisp st ++ ").",
        "Invalid frequency (must be >= 0 kHz).",
        "ERROR: Channel 1 cannot be set to skip.",
        "Invalid bandwidth code.",
        "Invalid mono/stereo code (must be 0 or 1)."].Nodup) := by
  have hguard : ∀ (st : RadioState) (ch f bw ms : Int) (pi ps : List Char),
      st.connected = true → 1 ≤ ch →
      (∀ m, st.max_channels = some m → ch ≤ m) →
      write_channel st ch f bw ms pi ps =
        (if f < 0 then .reject "Invalid frequency (must be >= 0 kHz)."
         else if ch = 1 ∧ is_skip_frequency st f = true then
           .reject "ERROR: Channel 1 cannot be set to skip."
         else if bw < 0 then .reject "Invalid bandwidth code."
         else if ¬ (ms = 0 ∨ ms = 1) then
           .reject "Invalid mono/stereo code (must be 0 or 1)."
         else
           .send ('S' :: pyIntRepr ch ++ [','] ++ pyIntRepr f ++ [',']
             ++ pyIntRepr bw ++ [','] ++ pyIntRepr ms ++ [',']
             ++ (pyUpper pi).take 4 ++ [','] ++ ps.take 8)) := by
    intro st ch f bw ms pi ps hc hch hm
    have hcond : ¬ ((decide (ch < 1) || (match st.max_channels with
        | some m => decide (m ≠ 0) && decide (ch > m)
        | none => false)) = true) := by
      simp only [Bool.or_eq_true, decide_eq_true_eq, not_or]
      refine ⟨by omega, ?_⟩
      cases hmx : st.max_channels with
      | none => simp
      | some m =>
        have hle := hm m hmx
        simp only [Bool.and_eq_true, decide_eq_true_eq, ne_eq, not_and]
        omega
    unfold write_channel
    rw [if_neg (by simp [hc]), if_neg hcond]
  refine ⟨?_, ?_, ?_, ?_, ?_, ?_, ?_⟩
  · intro st ch f bw ms pi ps hc
    unfold write_channel
    rw [if_pos (by simp [hc])]
  · intro st ch f bw ms pi ps m hc hmx hm hch
    unfold write_channel
    rw [if_neg (by simp [hc]), if_pos ?_]
    simp only [hmx, Bool.or_eq_true, decide_eq_true_eq, Bool.and_eq_true,
      ne_eq, decide_eq_true_eq]
    rcases hch with h | h
    · left; exact h
    · right; constructor
      · omega
      · exact h
  · intro st ch f bw ms pi ps hc hch hm hf
    rw [hguard st ch f bw ms pi ps hc hch hm, if_pos hf]
  · intro st f bw ms pi ps hc hm hf hskip
    have h4 : ((1 : Int) = 1 ∧ is_skip_frequency st f = true) := ⟨rfl, hskip⟩
    rw [hguard st 1 f bw ms pi ps hc (by omega) (fun m h => hm m h),
      if_neg (by omega : ¬ f < 0), if_pos h4]
  · intro st ch f bw ms pi ps hc hch hm hf hns hbw
    rw [hguard st ch f bw ms pi ps hc hch hm,
      if_neg (by omega : ¬ f < 0), if_neg hns, if_pos hbw]
  · intro st ch f bw ms pi ps hc hch hm hf hns hbw h0 h1
    rw [hguard st ch f bw ms pi ps hc hch hm,
      if_neg (by omega : ¬ f < 0), if_neg hns,
      if_neg (by omega : ¬ bw < 0), if_pos (by tauto)]
  · intro st
    have h1 := chanMsg_ne (maxChannelsDisp st) "ERROR: Not connected."
      (by decide)
    have h2 := chanMsg_ne (maxChannelsDisp st)
      "Invalid frequency (must be >= 0 kHz)." (by decide)
    have h3 := chanMsg_ne (maxChannelsDisp st)
      "ERROR: Channel 1 cannot be set to skip." (by decide)
    have h4 := chanMsg_ne (maxChannelsDisp st) "Invalid bandwidth code."
      (by decide)
    have h5 := chanMsg_ne (maxChannelsDisp st)
      "Invalid mono/stereo code (must be 0 or 1)." (by decide)
    simp only [List.nodup_cons, List.mem_cons, List.mem_singleton,
      List.not_mem_nil, List.nodup_nil, and_true, not_or, or_false]
    and_intros <;>
      first
        | decide
        | exact Ne.symm h1
        | exact h2
        | exact h3
        | exact h4
        | exact h5

/-- Witness for C4: a rejection observed on a concrete session. -/
theorem claim_C4_witness :
    write_channel ({ connected := false } : RadioState) 3 1000 0 1 [] []
      = .reject "ERROR: Not connected." :=
  claim_C4.1 _ 3 1000 0 1 [] [] rfl

end Tef

namespace Tef

/-- A connected session with `memoryPositions = 20` and device skip value
500 kHz (the configuration object itself is irrelevant to `write_channel`). -/
def sessionSkip500 : RadioState :=
  { connected := true, max_channels := some 20, skip_freq_value := some 500 }

/-- Claim C5 as frozen is refuted here: on a connected session whose
device skip value is 500, writing channel 1 with frequency 500 is itself
a skip-frequency write and is rejected, not sent. -/
theorem claim_C5_counterexample :
    write_channel sessionSkip500 1 500 0 1 [] []
      = .reject "ERROR: Channel 1 cannot be set to skip." ∧
    ∀ cmd, write_channel sessionSkip500 1 500 0 1 [] [] ≠ .send cmd := by
  constructor
  · decide
  · intro cmd h
    rw [show write_channel sessionSkip500 1 500 0 1 [] []
      = .reject "ERROR: Channel 1 cannot be set to skip." from by decide] at h
    exact WriteOutcome.noConfusion h

/-- Claim C5 amended: on every connected session, writing channel 1 with
frequency 0 is rejected before any bytes are sent; writing channel 1 with
frequency 500 proceeds to encode and send the `S` command provided 500 is
not the device's configured skip value, any known channel bound is
nonnegative, and the bandwidth and mono/stereo codes are valid. -/
theorem claim_C5 :
    (∀ (st : RadioState) (bw ms : Int) (pi ps : List Char),
      st.connected = true →
      ∃ msg, write_channel st 1 0 bw ms pi ps = .reject msg) ∧
    (∀ (st : RadioState) (bw ms : Int) (pi ps : List Char),
      st.connected = true →
      (∀ m, st.max_channels = some m → 0 ≤ m) →
      (∀ v, st.skip_freq_value = some v → v ≠ 500) →
      0 ≤ bw → (ms = 0 ∨ ms = 1) →
      write_channel st 1 500 bw ms pi ps
        = .send ('S' :: pyIntRepr 1 ++ [','] ++ pyIntRepr 500 ++ [',']
            ++ pyIntRepr bw ++ [','] ++ pyIntRepr ms ++ [',']
            ++ (pyUpper pi).take 4 ++ [','] ++ ps.take 8)) := by
  have hpass : ∀ (st : RadioState), (∀ m, st.max_channels = some m → 0 ≤ m) →
      ¬ ((decide ((1 : Int) < 1) || (match st.max_channels with
        | some m => decide (m ≠ 0) && decide ((1 : Int) > m)
        | none => false)) = true) := by
    intro st hm
    simp only [Bool.or_eq_true, decide_eq_true_eq, not_or]
    refine ⟨by omega, ?_⟩
    cases hmx : st.max_channels with
    | none => simp
    | some m =>
      have h0 := hm m hmx
      simp only [Bool.and_eq_true, decide_eq_true_eq, ne_eq, not_and]
      omega
  constructor
  · intro st bw ms pi ps hc
    unfold write_channel
    rw [if_neg (by simp [hc])]
    by_cases hch : ((decide ((1 : Int) < 1) || (match st.max_channels with
        | some m => decide (m ≠ 0) && decide ((1 : Int) > m)
        | none => false)) = true)
    · rw [if_pos hch]
      exact ⟨_, rfl⟩
    · rw [if_neg hch, if_neg (by omega : ¬ (0 : Int) < 0)]
      rw [if_pos ⟨rfl, by unfold is_skip_frequency; simp⟩]
      exact ⟨_, rfl⟩
  · intro st bw ms pi ps hc hm hskip hbw hms
    unfold write_channel
    rw [if_neg (by simp [hc]), if_neg (hpass st hm)]
    rw [if_neg (by omega : ¬ (500 : Int) < 0)]
    rw [if_neg ?_, if_neg (by omega : ¬ bw < 0), if_neg (by tauto)]
    simp only [not_and]
    intro _
    unfold is_skip_frequency
    simp only [Bool.or_eq_true, decide_eq_true_eq]
    intro hcontra
    rcases hcontra with h | h
    · omega
    · cases hv : st.skip_freq_value with
      | none => rw [hv] at h; simp at h
      | some v =>
        rw [hv] at h
        simp only [decide_eq_true_eq] at h
        exact hskip v hv (by omega)

/-- A connected session with `memoryPositions = 20` and device skip value
0 kHz. -/
def sessionSkip0 : RadioState :=
  { connected := true, max_channels := some 20, skip_freq_value := some 0 }

/-- Witness for C5 amended: a connected session with skip value 0 and 20
memory positions accepts channel 1 at 500 kHz and rejects it at 0 kHz. -/
theorem claim_C5_witness :
    (∃ msg, write_channel sessionSkip0 1 0 0 1 [] [] = .reject msg) ∧
    write_channel sessionSkip0 1 500 0 1 [] []
      = .send ('S' :: pyIntRepr 1 ++ [','] ++ pyIntRepr 500 ++ [',']
          ++ pyIntRepr 0 ++ [','] ++ pyIntRepr 1 ++ [',']
          ++ (pyUpper []).take 4 ++ [','] ++ ([] : List Char).take 8) :=
  ⟨claim_C5.1 _ 0 1 [] [] rfl,
   claim_C5.2 _ 0 1 [] [] rfl
     (fun m h => by injection h with h; omega)
     (fun v h => by injection h with h; omega)
     (by omega) (Or.inr rfl)⟩

end Tef

namespace Tef

/-- Claim C10: with no configuration read (`max_channels` unset), the
channel-range validation applies no upper bound: for every channel
number at least 1 it never produces the channel-range rejection, and if
the remaining validations pass the `S` command is sent. -/
theorem claim_C10 :
    ∀ (st : RadioState) (ch f bw ms : Int) (pi ps : List Char),
      st.connected = true → st.max_channels = none → 1 ≤ ch →
      (write_channel st ch f bw ms pi ps
          ≠ .reject ("Invalid channel number (1-" ++ maxChannelsDisp st ++ ").")) ∧
      (0 ≤ f → ¬(ch = 1 ∧ is_skip_frequency st f = true) → 0 ≤ bw →
        (ms = 0 ∨ ms = 1) →
        write_channel st ch f bw ms pi ps
          = .send ('S' :: pyIntRepr ch ++ [','] ++ pyIntRepr f ++ [',']
              ++ pyIntRepr bw ++ [','] ++ pyIntRepr ms ++ [',']
              ++ (pyUpper pi).take 4 ++ [','] ++ ps.take 8)) := by
  intro st ch f bw ms pi ps hc hmx hch
  have hcond : ¬ ((decide (ch < 1) || (match st.max_channels with
      | some m => decide (m ≠ 0) && decide (ch > m)
      | none => false)) = true) := by
    rw [hmx]
    simp only [Bool.or_eq_true, decide_eq_true_eq, not_or]
    exact ⟨by omega, by simp⟩
  constructor
  · unfold write_channel
    rw [if_neg (by simp [hc]), if_neg hcond]
    have hdisp : maxChannelsDisp st = "?" := by
      unfold maxChannelsDisp; rw [hmx]
    rw [hdisp]
    by_cases h1 : f < 0
    · rw [if_pos h1]; decide
    · rw [if_neg h1]
      by_cases h2 : ch = 1 ∧ is_skip_frequency st f = true
      · rw [if_pos h2]; decide
      · rw [if_neg h2]
        by_cases h3 : bw < 0
        · rw [if_pos h3]; decide
        · rw [if_neg h3]
          by_cases h4 : ¬ (ms = 0 ∨ ms = 1)
          · rw [if_pos h4]; decide
          · rw [if_neg h4]
            intro hcontra
            exact WriteOutcome.noConfusion hcontra
  · intro hf hns hbw hms
    unfold write_channel
    rw [if_neg (by simp [hc]), if_neg hcond,
      if_neg (by omega : ¬ f < 0), if_neg hns,
      if_neg (by omega : ¬ bw < 0), if_neg (by tauto)]

/-- Witness for C10: channel 999 passes the range check on a session with
unknown memory size and the command is sent. -/
theorem claim_C10_witness :
    write_channel ({ connected := true } : RadioState) 999 87500 0 1 [] []
      = .send ('S' :: pyIntRepr 999 ++ [','] ++ pyIntRepr 87500 ++ [',']
          ++ pyIntRepr 0 ++ [','] ++ pyIntRepr 1 ++ [',']
          ++ (pyUpper []).take 4 ++ [','] ++ ([] : List Char).take 8) :=
  (claim_C10 _ 999 87500 0 1 [] [] rfl rfl (by omega)).2 (by omega)
    (by intro h; exact absurd h.1 (by omega)) (by omega) (Or.inr rfl)

end Tef

namespace Tef

/-- Claim C6 as frozen is refuted here: with a loaded configuration whose
channel list is empty, an explicitly passed record with `freqKhz = 0` and
no known skip value should compare `0 == 0` and yield true per the claim,
but the code returns false (empty `channels` is falsy). -/
theorem claim_C6_counterexample :
    is_channel_skipped ({ config := some {} } : RadioState) 7
        (some ({ freq_khz := some 0 } : ChannelRec)) = false ∧
    claim_isSkipped ({ config := some {} } : RadioState) 7
        (some ({ freq_khz := some 0 } : ChannelRec)) = true := by
  constructor <;> decide

/-- Every branch of the dispatch either leaves the channel list unchanged
or appends exactly the parsed channel row of the line. -/
theorem processConfigLine_channels (st : ReadLoopState) (line : List Char) :
    (processConfigLine st line).cfg.channels
      = st.cfg.channels ++ (lineChannel line).toList := by
  unfold processConfigLine
  by_cases h1 : pyStartsWith line ['r', ':'] = true
  · rw [if_pos h1]; simp [lineChannel, hasConfigKey, h1]
  rw [if_neg h1]
  by_cases h2 : pyStartsWith line ['v', ':'] = true
  · rw [if_pos h2]; simp [lineChannel, hasConfigKey, h2]
  rw [if_neg h2]
  by_cases h3 : pyStartsWith line ['m', ':'] = true
  · rw [if_pos h3]
    cases parsePyInt (line.drop 2) <;> simp [lineChannel, hasConfigKey, h3]
  rw [if_neg h3]
  by_cases h4 : pyStartsWith line ['s', ':'] = true
  · rw [if_pos h4]
    cases parsePyInt (line.drop 2) <;> simp [lineChannel, hasConfigKey, h4]
  rw [if_neg h4]
  by_cases h5 : pyStartsWith line ['o', ':'] = true
  · rw [if_pos h5]
    rcases pySplit ':' (pyStrip (line.drop 2)) with _ | ⟨p0, prest⟩
    · simp [lineChannel, hasConfigKey, h5]
    · cases hp : parsePyInt p0 <;> simp [lineChannel, hasConfigKey, h5, hp]
  rw [if_neg h5]
  by_cases h6 : pyStartsWith line ['a', ':'] = true
  · rw [if_pos h6]
    rcases pySplit ',' (pyStrip (line.drop 2)) with _ | ⟨p0, _ | ⟨p1, prest⟩⟩
    · simp [lineChannel, hasConfigKey, h6]
    · simp [lineChannel, hasConfigKey, h6]
    · cases hp : parsePyInt p0 <;> cases hq : parsePyInt p1 <;>
        simp [lineChannel, hasConfigKey, h6, hp, hq]
  rw [if_neg h6]
  by_cases h7 : pyStartsWith line ['f', ':'] = true
  · rw [if_pos h7]
    rcases pySplit ',' (pyStrip (line.drop 2)) with _ | ⟨p0, _ | ⟨p1, prest⟩⟩
    · simp [lineChannel, hasConfigKey, h7]
    · simp [lineChannel, hasConfigKey, h7]
    · cases hp : parsePyInt p0 <;> cases hq : parsePyInt p1 <;>
        simp [lineChannel, hasConfigKey, h7, hp, hq]
  rw [if_neg h7]
  cases hpc : parseChannelFields (pySplit ',' line) <;>
    simp [lineChannel, hasConfigKey, h1, h2, h3, h4, h5, h6, h7, hpc]

/-- A `timeoutResult` that produces a configuration produces the
accumulated one. -/
theorem timeoutResult_some {st : ReadLoopState} {cfg : ConfigData} {w : Bool}
    (h : timeoutResult st = (some cfg, w)) : cfg = st.cfg := by
  unfold timeoutResult at h
  split at h
  · injection h with h1 h2
    injection h1 with h1
    exact h1.symm
  · split at h
    · injection h with h1 h2
      exact Option.noConfusion h1
    · injection h with h1 h2
      injection h1 with h1
      exact h1.symm

/-- Provenance of the accumulated channels: a successful loop run consumed
a block of real lines from the front of the stream, and its channels are
the accumulated ones plus, in order, the parsed channel rows of that
block. -/
theorem readConfigLoop_provenance :
    ∀ (stream : List (Option (List Char))) (st : ReadLoopState)
      (cfg : ConfigData) (w : Bool),
      readConfigLoop st stream = (some cfg, w) →
      ∃ (p : List (List Char)) (q : List (Option (List Char))),
        stream = p.map some ++ q ∧
        cfg.channels = st.cfg.channels ++ p.filterMap lineChannel := by
  intro stream
  induction stream with
  | nil =>
    intro st cfg w h
    exact ⟨[], [], by simp, by simp [timeoutResult_some h]⟩
  | cons head rest ih =>
    intro st cfg w h
    cases head with
    | none =>
      exact ⟨[], none :: rest, by simp, by simp [timeoutResult_some h]⟩
    | some line =>
      unfold readConfigLoop at h
      by_cases hc : configComplete
          (processConfigLine { st with linesRead := st.linesRead + 1 } line) = true
      · rw [if_pos hc] at h
        injection h with h1 h2
        injection h1 with h1
        refine ⟨[line], rest, by simp, ?_⟩
        rw [← h1, processConfigLine_channels]
        cases hl : lineChannel line <;> simp [List.filterMap_cons, hl]
      · rw [if_neg hc] at h
        obtain ⟨p, q, hs, hch⟩ :=
          ih (processConfigLine { st with linesRead := st.linesRead + 1 } line)
            cfg w h
        refine ⟨line :: p, q, by simp [hs], ?_⟩
        rw [hch, processConfigLine_channels]
        cases hl : lineChannel line <;> simp [List.filterMap_cons, hl]

/-- Starting with a two-character key determines the first two characters. -/
theorem pyStartsWith_two {line : List Char} {c d : Char}
    (h : pyStartsWith line [c, d] = true) :
    ∃ rest, line = c :: d :: rest := by
  unfold pyStartsWith at h
  simp only [decide_eq_true_eq] at h
  cases line with
  | nil => simp at h
  | cons a t =>
    cases t with
    | nil => simp [List.take] at h
    | cons b t2 =>
      refine ⟨t2, ?_⟩
      simp [List.take] at h
      rw [h.1, h.2]

/-- Evaluating `startswith` on a line with at least two characters. -/
theorem pyStartsWith_cons2 (a b c d : Char) (t : List Char) :
    pyStartsWith (a :: b :: t) [c, d] = true ↔ (a = c ∧ b = d) := by
  unfold pyStartsWith
  simp [List.take]

/-- A channel row accepted by the loop carries a channel number within the
given bound; `Bool`-valued so concrete instances evaluate. -/
def goodChannel (m : Int) (r : ChannelRec) : Bool :=
  match r.channel with
  | some n => 1 ≤ n && n ≤ m
  | none => false

/-- Every channel row parsed from a stream element is within bound. -/
def chanRowOK (m : Int) (o : Option (List Char)) : Bool :=
  match o.bind lineChannel with
  | some rec => goodChannel m rec
  | none => true

/-- Claim C6 amended: `is_channel_skipped` behaves exactly as the claim
describes, with the added false-condition that the loaded configuration's
channel list is empty. -/
theorem claim_C6 :
    ∀ (st : RadioState) (ch_num : Int) (channel_data : Option ChannelRec),
      is_channel_skipped st ch_num channel_data
        = amended_isSkipped st ch_num channel_data := by
  intro st ch_num channel_data
  unfold is_channel_skipped amended_isSkipped claim_isSkipped
  cases st.config with
  | none => rfl
  | some cfg =>
    by_cases hch : cfg.channels = []
    · simp [hch, List.isEmpty_iff]
    · simp [List.isEmpty_iff, hch]

end Tef

namespace Tef

/-- Claim C7: a timeout with zero lines ever read is a hard failure
returning absence (first two conjuncts: the very first read times out, or
the stream is empty); a timeout at any loop state where at least one line
was read and the declared channel count is not yet reached returns the
partial configuration with the timeout warning. -/
theorem claim_C7 :
    (∀ rest, read_configuration (none :: rest) = (none, false)) ∧
    read_configuration ([] : List (Option (List Char))) = (none, false) ∧
    (∀ (st : ReadLoopState) (rest : List (Option (List Char))) (e : Int),
      st.expected = some e → (st.cfg.channels.length : Int) < e →
      1 ≤ st.linesRead →
      readConfigLoop st (none :: rest) = (some st.cfg, true) ∧
      readConfigLoop st ([] : List (Option (List Char))) = (some st.cfg, true)) := by
  refine ⟨?_, ?_, ?_⟩
  · intro rest; rfl
  · rfl
  · intro st rest e he hlt hlr
    have hpt : partialTimeout st = true := by
      unfold partialTimeout
      rw [he]
      simpa using hlt
    constructor <;>
      (show timeoutResult st = (some st.cfg, true)
       unfold timeoutResult
       rw [if_pos hpt])

/-- One accumulated channel out of two declared: the loop state reached
after `m:2` and one channel row. -/
def partialReadState : ReadLoopState where
  cfg := { memory_positions := some 2,
           channels := [{ channel := some 1, freq_khz := some 100 }] }
  linesRead := 2
  expected := some 2

/-- Witness for C7: a dead first read hard-fails, and a loop state holding
one of two declared channels times out into a partial result with the
warning. -/
theorem claim_C7_witness :
    read_configuration (none :: [some (['m', ':', '2'])]) = (none, false) ∧
    readConfigLoop partialReadState [none]
      = (some partialReadState.cfg, true) :=
  ⟨claim_C7.1 [some (['m', ':', '2'])],
   (claim_C7.2.2 partialReadState [] 2 rfl (by decide) (by decide)).1⟩

end Tef

namespace Tef

/-- Claim C8 as frozen is refuted here: on the dump line `o:10,20` the
code splits the remainder on a colon and `int("10,20")` fails, leaving
`fmOffsetKhz` absent with a warning, while the claim's first-comma-field
reading yields 10.  The one-line stream below runs the full reader. -/
theorem claim_C8_counterexample :
    read_configuration [some ("o:10,20".toList), none]
      = (some ({} : ConfigData), false) ∧
    claim_fmOffset ("o:10,20".toList) = some 10 := by
  constructor <;> decide

/-- Claim C8 amended: for every dump line beginning with `o:`, the reader
sets `fmOffsetKhz` to the integer parsed from the remainder's prefix up to
the first colon (the whole remainder when it has no colon), leaving the
previous value in place when that parse fails. -/
theorem claim_C8 :
    ∀ (st : ReadLoopState) (line : List Char),
      pyStartsWith line ['o', ':'] = true →
      (processConfigLine st line).cfg.fm_offset_khz
        = (match pySplit ':' (pyStrip (line.drop 2)) with
           | [] => st.cfg.fm_offset_khz
           | p0 :: _ =>
             match parsePyInt p0 with
             | some v => some v
             | none => st.cfg.fm_offset_khz) := by
  intro st line h
  obtain ⟨rest, hline⟩ := pyStartsWith_two h
  subst hline
  unfold processConfigLine
  rw [if_neg (by rw [pyStartsWith_cons2]; decide),
    if_neg (by rw [pyStartsWith_cons2]; decide),
    if_neg (by rw [pyStartsWith_cons2]; decide),
    if_neg (by rw [pyStartsWith_cons2]; decide),
    if_pos (by rw [pyStartsWith_cons2]; decide)]
  simp only [List.drop_succ_cons, List.drop_zero]
  rcases hsp : pySplit ':' (pyStrip rest) with _ | ⟨p0, prest⟩
  · simp [hsp]
  · cases hp : parsePyInt p0 <;> simp [hsp, hp]

/-- Witness for C8 amended: `o:100` sets the offset to 100. -/
theorem claim_C8_witness :
    (processConfigLine {} ("o:100".toList)).cfg.fm_offset_khz
      = (match pySplit ':' (pyStrip (("o:100".toList).drop 2)) with
         | [] => ({} : ReadLoopState).cfg.fm_offset_khz
         | p0 :: _ =>
           match parsePyInt p0 with
           | some v => some v
           | none => ({} : ReadLoopState).cfg.fm_offset_khz) :=
  claim_C8 {} ("o:100".toList) (by decide)

end Tef

namespace Tef

/-- Claim C9 as frozen is refuted here: the reader copies channel numbers
verbatim from the stream, so a device sending two rows numbered 0 yields a
successful configuration whose channel numbers are neither 1-based nor
unique. -/
def rowZero : ChannelRec where
  channel := some 0
  freq_khz := some 100
  bandwidth_code := some 0
  mono_stereo_code := some 1

/-- The configuration the reader produces from `m:2` followed by two
channel rows both numbered 0. -/
def cfgTwinZero : ConfigData where
  memory_positions := some 2
  channels := [rowZero, rowZero]

theorem claim_C9_counterexample :
    read_configuration [some ("m:2".toList), some ("0,100,0,1,,".toList),
        some ("0,100,0,1,,".toList)]
      = (some cfgTwinZero, false) ∧
    ¬ (∀ r ∈ cfgTwinZero.channels, goodChannel 2 r = true) ∧
    ¬ (cfgTwinZero.channels.map (fun r => r.channel)).Nodup := by
  refine ⟨?_, ?_, ?_⟩ <;> decide

/-- Claim C9 amended: the reader does not enforce the invariant itself; it
holds for any successful result whose stream only carries channel rows
with 1-based, in-bound, pairwise distinct channel numbers. -/
theorem claim_C9 :
    ∀ (stream : List (Option (List Char))) (cfg : ConfigData) (w : Bool)
      (m : Int),
      read_configuration stream = (some cfg, w) →
      (∀ o ∈ stream, chanRowOK m o = true) →
      (((stream.filterMap id).filterMap lineChannel).map
        (fun r => r.channel)).Nodup →
      (∀ r ∈ cfg.channels, goodChannel m r = true) ∧
      (cfg.channels.map (fun r => r.channel)).Nodup := by
  intro stream cfg w m h hbound hnd
  obtain ⟨p, q, hs, hch⟩ := readConfigLoop_provenance stream {} cfg w h
  have hch' : cfg.channels = p.filterMap lineChannel := by simpa using hch
  constructor
  · intro r hr
    rw [hch'] at hr
    obtain ⟨line, hline, hlc⟩ := List.mem_filterMap.mp hr
    have hmem : some line ∈ stream := by
      rw [hs]
      exact List.mem_append_left _ (List.mem_map_of_mem some hline)
    have hok := hbound (some line) hmem
    unfold chanRowOK at hok
    simp only [Option.some_bind] at hok
    rw [hlc] at hok
    exact hok
  · rw [hch']
    have hsub : p.Sublist (stream.filterMap id) := by
      rw [hs, List.filterMap_append]
      have hps : (p.map some).filterMap id = p := by simp
      rw [hps]
      exact List.sublist_append_left _ _
    exact hnd.sublist ((hsub.filterMap lineChannel).map (fun r => r.channel))

end Tef

namespace Tef

def rowOne : ChannelRec where
  channel := some 1
  freq_khz := some 100
  bandwidth_code := some 0
  mono_stereo_code := some 1

def rowTwo : ChannelRec where
  channel := some 2
  freq_khz := some 200
  bandwidth_code := some 0
  mono_stereo_code := some 1

/-- The configuration read from `m:2` and two well-formed channel rows. -/
def cfgOneTwo : ConfigData where
  memory_positions := some 2
  channels := [rowOne, rowTwo]

/-- Witness for C9 amended: a stream with distinct in-range channel rows
yields a configuration satisfying the invariant. -/
theorem claim_C9_witness :
    (∀ r ∈ cfgOneTwo.channels, goodChannel 2 r = true) ∧
    (cfgOneTwo.channels.map (fun r => r.channel)).Nodup :=
  claim_C9 [some ("m:2".toList), some ("1,100,0,1,,".toList),
      some ("2,200,0,1,,".toList)] cfgOneTwo false 2
    (by decide) (by decide) (by decide)

end Tef

namespace Tef

/-! ### CSV Codec & Differential Import
(`_export_csv_worker` lines 2233-2284, `_import_csv_thread_worker` lines
2345-2583 of `tef_memory_manager.py`)

The `csv` module round-trips field strings exactly (quoting is inverted by
unquoting), so the file is modelled at the field level: a row is a
`List (List Char)` of field strings. -/

/-- The fixed `CSV_HEADER` as field strings. -/
def CSV_HEADER_F : List (List Char) :=
  ["Channel".toList, "Frequency kHz".toList, "Bandwidth Code".toList,
   "Mono/Stereo Code".toList, "PI Code".toList, "PS Text".toList]

/-- `'' if value is None else value` on export, and `(d.get(k) or '')` in
the import diff: both send an absent or empty string to the empty string
and leave any other string unchanged. -/
def strOrEmpty : Option (List Char) → List Char
  | some s => s
  | none => []

/-- A numeric cell: absent renders as the empty string, a number as its
Python `str` (the `csv` writer stringifies integers with `str`). -/
def csvField : Option Int → List Char
  | none => []
  | some n => pyIntRepr n

/-- One exported data row, in `CSV_HEADER` column order. -/
def exportRow (r : ChannelRec) : List (List Char) :=
  [csvField r.channel, csvField r.freq_khz, csvField r.bandwidth_code,
   csvField r.mono_stereo_code, strOrEmpty r.pi, strOrEmpty r.ps]

/-- `key=lambda x: x.get('channel', float('inf'))`: records without a
channel number sort last. -/
def chanKeyLE (a b : ChannelRec) : Bool :=
  match a.channel, b.channel with
  | some x, some y => x ≤ y
  | some _, none => true
  | none, _ => true

/-- Insertion into a key-sorted list (after equal keys, hence stable). -/
def insertSorted (r : ChannelRec) : List ChannelRec → List ChannelRec
  | [] => [r]
  | x :: xs => if chanKeyLE x r then x :: insertSorted r xs else r :: x :: xs

/-- `sorted(channels, key=...)`: a stable sort by channel number. -/
def sortChannels (l : List ChannelRec) : List ChannelRec :=
  l.foldr insertSorted []

/-- `_export_csv_worker`: header row, then the channel rows sorted by
channel number. -/
def exportCSV (cfg : ConfigData) : List (List (List Char)) :=
  CSV_HEADER_F :: (sortChannels cfg.channels).map exportRow

/-- A fully validated imported row (`imported_channels[ch]` value; the
numeric fields are the parsed integers, `pi` is stripped, upper-cased and
truncated to 4, `ps` stripped and truncated to 8). -/
structure ImportedRow where
  channel : Int
  freq_khz : Int
  bandwidth_code : Int
  mono_stereo_code : Int
  pi : List Char
  ps : List Char
deriving DecidableEq

/-- The per-row parse/validate/sanitize block of
`_import_csv_thread_worker`; `none` is a row skipped with a warning
(blank, wrong column count, unparsable number, failed validation, or
channel 1 with a skip frequency). `M` is the session's known
`max_channels`. -/
def parse_csv_row (st : RadioState) (M : Int) (row : List (List Char)) :
    Option ImportedRow :=
  if row.all (fun field => pyStrip field = []) then none
  else if row.length ≠ 6 then none
  else match row with
    | [r0, r1, r2, r3, r4, r5] =>
      (match parsePyInt r0, parsePyInt r1, parsePyInt r2, parsePyInt r3 with
       | some ch, some freq, some bw, some ms =>
         let pi := pyUpper (pyStrip r4)
         let ps := pyStrip r5
         if ¬ (1 ≤ ch ∧ ch ≤ M) then none
         else if freq < 0 then none
         else if bw < 0 then none
         else if ¬ (ms = 0 ∨ ms = 1) then none
         else
           let pi := pi.take 4
           let ps := ps.take 8
           if ch = 1 ∧ is_skip_frequency st freq = true then none
           else some ⟨ch, freq, bw, ms, pi, ps⟩
       | _, _, _, _ => none)
    | _ => none

/-- Python-dict insertion: an existing key keeps its position and gets the
new value, a new key is appended. -/
def dictInsert (l : List ImportedRow) (imp : ImportedRow) : List ImportedRow :=
  if l.any (fun x => x.channel = imp.channel) then
    l.map (fun x => if x.channel = imp.channel then imp else x)
  else l ++ [imp]

/-- `imported_channels` accumulated over the data rows (last row for a
duplicate channel wins). -/
def importRows (st : RadioState) (M : Int) (rows : List (List (List Char))) :
    List ImportedRow :=
  rows.foldl (fun acc row =>
    match parse_csv_row st M row with
    | some imp => dictInsert acc imp
    | none => acc) []

/-- `current_channels_dict.get(ch_num)`: the comprehension keeps the last
record for a channel number, skipping records without one. -/
def lookupCurrent (chans : List ChannelRec) (ch : Int) : Option ChannelRec :=
  (chans.filter (fun c => c.channel = some ch)).getLast?

/-- The per-imported-row diff of `_import_csv_thread_worker` deciding
`needs_write`. -/
def rowNeedsWrite (st : RadioState) (chans : List ChannelRec)
    (imp : ImportedRow) : Bool :=
  match lookupCurrent chans imp.channel with
  | none => ¬ is_skip_frequency st imp.freq_khz
  | some c =>
    let curr_pi := strOrEmpty c.pi
    let curr_ps := strOrEmpty c.ps
    let anyDiff :=
      (c.freq_khz ≠ some imp.freq_khz) ||
      (c.bandwidth_code ≠ some imp.bandwidth_code) ||
      (c.mono_stereo_code ≠ some imp.mono_stereo_code) ||
      (imp.pi ≠ pyUpper curr_pi) ||
      (imp.ps ≠ curr_ps)
    if anyDiff then
      if is_skip_frequency st imp.freq_khz &&
         is_channel_skipped st imp.channel (some c) &&
         (c.bandwidth_code = some imp.bandwidth_code) &&
         (c.mono_stereo_code = some imp.mono_stereo_code) &&
         (imp.pi = pyUpper curr_pi) && (imp.ps = curr_ps) then
        false
      else true
    else false

/-- The diff phase: iterate the imported dict in insertion order and keep
the rows that need writing.  With no loaded configuration the surrounding
GUI refuses the import; with an unknown `max_channels` the range check
`1 <= ch <= None` raises, the exception lands in `parse_errors`, and no
diff runs — either way the write list is empty. -/
def importDiff (st : RadioState) (rows : List (List (List Char))) :
    List ImportedRow :=
  match st.config, st.max_channels with
  | some cfg, some M =>
    (importRows st M rows).filter (fun imp => rowNeedsWrite st cfg.channels imp)
  | some _, none => []
  | none, _ => []

/-- The whole import worker at the file level: an empty file or a header
mismatch is a fatal parse error (empty write list), otherwise the data
rows are parsed and diffed. -/
def importCSV (st : RadioState) (file : List (List (List Char))) :
    List ImportedRow :=
  match file with
  | [] => []
  | header :: rows =>
    if header ≠ CSV_HEADER_F then []
    else importDiff st rows

end Tef

namespace Tef

theorem char_toNat_ofNat {n : Nat} (h : n.isValidChar) :
    (Char.ofNat n).toNat = n := by
  unfold Char.ofNat
  rw [dif_pos h]
  rfl

theorem char_toUpper_eq_self {c : Char}
    (h : ¬ (c.toNat ≥ 97 ∧ c.toNat ≤ 122)) : c.toUpper = c := by
  unfold Char.toUpper
  rw [if_neg h]

theorem char_toUpper_of_lower {c : Char}
    (h : c.toNat ≥ 97 ∧ c.toNat ≤ 122) :
    c.toUpper = Char.ofNat (c.toNat - 32) := by
  unfold Char.toUpper
  rw [if_pos h]

theorem char_toUpper_idem (c : Char) : c.toUpper.toUpper = c.toUpper := by
  by_cases h : c.toNat ≥ 97 ∧ c.toNat ≤ 122
  · rw [char_toUpper_of_lower h]
    apply char_toUpper_eq_self
    have hv : (c.toNat - 32).isValidChar := Or.inl (by omega)
    rw [char_toNat_ofNat hv]
    omega
  · rw [char_toUpper_eq_self h, char_toUpper_eq_self h]

theorem pyUpper_idem (l : List Char) : pyUpper (pyUpper l) = pyUpper l := by
  unfold pyUpper
  rw [List.map_map]
  apply List.map_congr_left
  intro c _
  exact char_toUpper_idem c

theorem pyIntRepr_nonempty (i : Int) : pyIntRepr i ≠ [] := by
  unfold pyIntRepr
  by_cases hi : i < 0
  · rw [if_pos hi]; simp
  · rw [if_neg hi]; exact natRepr_nonempty _

/-- Truncated upper-cased text is unchanged by a second upper-casing. -/
theorem pyUpper_take_upper (n : Nat) (x : List Char) :
    pyUpper ((pyUpper x).take n) = (pyUpper x).take n := by
  unfold pyUpper
  rw [← List.map_take, List.map_map]
  apply List.map_congr_left
  intro c _
  exact char_toUpper_idem c

/-- The PI of any row the import parser accepts is already upper-case. -/
theorem parse_pi_upper {st : RadioState} {M : Int} {row : List (List Char)}
    {imp : ImportedRow} (h : parse_csv_row st M row = some imp) :
    pyUpper imp.pi = imp.pi := by
  unfold parse_csv_row at h
  repeat' split at h
  all_goals
    first
      | exact Option.noConfusion h
      | (injection h with h
         rw [← h]
         exact pyUpper_take_upper 4 _)

end Tef

namespace Tef

theorem dictInsert_mem {l : List ImportedRow} {imp x : ImportedRow}
    (h : x ∈ dictInsert l imp) : x ∈ l ∨ x = imp := by
  unfold dictInsert at h
  split at h
  · obtain ⟨y, hy, hxy⟩ := List.mem_map.mp h
    by_cases hc : y.channel = imp.channel
    · right; rw [← hxy, if_pos hc]
    · left; rw [← hxy, if_neg hc]; exact hy
  · rcases List.mem_append.mp h with h1 | h2
    · left; exact h1
    · right; simpa using h2

theorem importRows_mem {st : RadioState} {M : Int}
    {rows : List (List (List Char))} {imp : ImportedRow}
    (h : imp ∈ importRows st M rows) :
    ∃ row ∈ rows, parse_csv_row st M row = some imp := by
  unfold importRows at h
  suffices haux : ∀ (rows : List (List (List Char)))
      (acc : List ImportedRow),
      imp ∈ rows.foldl (fun acc row =>
        match parse_csv_row st M row with
        | some i => dictInsert acc i
        | none => acc) acc →
      imp ∈ acc ∨ ∃ row ∈ rows, parse_csv_row st M row = some imp by
    rcases haux rows [] h with h1 | h2
    · simp at h1
    · exact h2
  intro rows
  induction rows with
  | nil => intro acc hacc; left; simpa using hacc
  | cons row rest ih =>
    intro acc hacc
    simp only [List.foldl_cons] at hacc
    cases hp : parse_csv_row st M row with
    | none =>
      rw [hp] at hacc
      rcases ih acc hacc with h1 | ⟨row2, hr2, hp2⟩
      · left; exact h1
      · right; exact ⟨row2, List.mem_cons_of_mem _ hr2, hp2⟩
    | some i =>
      rw [hp] at hacc
      rcases ih (dictInsert acc i) hacc with h1 | ⟨row2, hr2, hp2⟩
      · rcases dictInsert_mem h1 with h2 | h2
        · left; exact h2
        · right
          exact ⟨row, List.mem_cons_self _ _, by rw [hp, h2]⟩
      · right; exact ⟨row2, List.mem_cons_of_mem _ hr2, hp2⟩

theorem insertSorted_perm (r : ChannelRec) (l : List ChannelRec) :
    List.Perm (insertSorted r l) (r :: l) := by
  induction l with
  | nil => simp [insertSorted]
  | cons x xs ih =>
    unfold insertSorted
    split
    · exact (ih.cons x).trans (List.Perm.swap r x xs)
    · exact List.Perm.refl _

theorem sortChannels_perm (l : List ChannelRec) :
    List.Perm (sortChannels l) l := by
  unfold sortChannels
  induction l with
  | nil => simp
  | cons x xs ih =>
    simp only [List.foldr_cons]
    exact (insertSorted_perm _ _).trans (ih.cons x)

/-- With pairwise-distinct channel numbers, the current-channels dict
resolves a number to the unique record carrying it. -/
theorem lookup_unique {chans : List ChannelRec} {r : ChannelRec} {ch0 : Int}
    (hnd : (chans.filterMap (fun c => c.channel)).Nodup)
    (hr : r ∈ chans) (hc : r.channel = some ch0) :
    lookupCurrent chans ch0 = some r := by
  induction chans with
  | nil => simp at hr
  | cons x xs ih =>
    rcases List.mem_cons.mp hr with h1 | h2
    · subst h1
      have hnd' : ch0 ∉ xs.filterMap (fun c => c.channel) := by
        rw [List.filterMap_cons, hc] at hnd
        exact (List.nodup_cons.mp hnd).1
      have hfx : xs.filter (fun c => c.channel = some ch0) = [] := by
        rw [List.filter_eq_nil_iff]
        intro c hcx hcc
        apply hnd'
        simp only [decide_eq_true_eq] at hcc
        exact List.mem_filterMap.mpr ⟨c, hcx, hcc⟩
      unfold lookupCurrent
      rw [List.filter_cons_of_pos (by simp [hc]), hfx]
      rfl
    · have hxne : ¬ (x.channel = some ch0) := by
        intro hx
        rw [List.filterMap_cons, hx] at hnd
        exact (List.nodup_cons.mp hnd).1
          (List.mem_filterMap.mpr ⟨r, h2, hc⟩)
      have hnd2 : (xs.filterMap (fun c => c.channel)).Nodup := by
        rw [List.filterMap_cons] at hnd
        cases hxc : x.channel with
        | none => rw [hxc] at hnd; exact hnd
        | some v => rw [hxc] at hnd; exact (List.nodup_cons.mp hnd).2
      unfold lookupCurrent
      rw [List.filter_cons_of_neg (by simpa using hxne)]
      exact ih hnd2 h2

end Tef

namespace Tef

theorem csvField_some (n : Int) : csvField (some n) = pyIntRepr n := rfl

theorem parsePyInt_nil : parsePyInt [] = none := rfl

/-- An exported numeric cell that parses back was present, with the same
value. -/
theorem csvField_parse {o : Option Int} {v : Int}
    (h : parsePyInt (csvField o) = some v) : o = some v := by
  cases o with
  | none => rw [csvField, parsePyInt_nil] at h; exact Option.noConfusion h
  | some n =>
    rw [csvField_some, parsePyInt_pyIntRepr] at h
    injection h with h
    rw [h]

/-- Inversion: when the import parser accepts an exported row, the
record's numeric fields were present and survive unchanged, and the text
fields are the stripped/upper-cased/truncated originals. -/
theorem parse_exportRow_inv {st : RadioState} {M : Int} {r : ChannelRec}
    {imp : ImportedRow} (h : parse_csv_row st M (exportRow r) = some imp) :
    r.channel = some imp.channel ∧ r.freq_khz = some imp.freq_khz ∧
    r.bandwidth_code = some imp.bandwidth_code ∧
    r.mono_stereo_code = some imp.mono_stereo_code ∧
    imp.pi = (pyUpper (pyStrip (strOrEmpty r.pi))).take 4 ∧
    imp.ps = (pyStrip (strOrEmpty r.ps)).take 8 := by
  unfold parse_csv_row exportRow at h
  repeat' split at h
  all_goals
    first
      | exact Option.noConfusion h
      | (simp only [Option.some.injEq] at h
         rename_i hlist hs1 hs2 hs3 hs4 hc hf2 hb2 hm2 hp0 hp1 hp2 hp3 hv1
           hv2 hv3 hv4 hv5
         injection hlist with e0 t1
         injection t1 with e1 t2
         injection t2 with e2 t3
         injection t3 with e3 t4
         injection t4 with e4 t5
         injection t5 with e5 t6
         subst h
         refine ⟨?_, ?_, ?_, ?_, ?_, ?_⟩
         · exact csvField_parse (by rw [e0]; exact hp0)
         · exact csvField_parse (by rw [e1]; exact hp1)
         · exact csvField_parse (by rw [e2]; exact hp2)
         · exact csvField_parse (by rw [e3]; exact hp3)
         · rw [e4]
         · rw [e5])
      | (exfalso
         rename_i hlist hs1 hs2 hs3 hs4 hc hf2 hb2 hm2 hp0 hp1 hp2 hp3 hv1
           hv2 hv3 hv4 hv5
         exact hlist _ _ _ _ _ _ rfl)

/-- The positive direction: an exported row whose record passes all of
the import validations parses back to its sanitized image. -/
theorem parse_exportRow {st : RadioState} {M : Int} {r : ChannelRec}
    {ch0 f0 b0 m0 : Int}
    (hch : r.channel = some ch0) (hf : r.freq_khz = some f0)
    (hb : r.bandwidth_code = some b0) (hm : r.mono_stereo_code = some m0)
    (hr1 : 1 ≤ ch0 ∧ ch0 ≤ M) (hr2 : 0 ≤ f0) (hr3 : 0 ≤ b0)
    (hr4 : m0 = 0 ∨ m0 = 1)
    (hr5 : ¬ (ch0 = 1 ∧ is_skip_frequency st f0 = true)) :
    parse_csv_row st M (exportRow r)
      = some ⟨ch0, f0, b0, m0, (pyUpper (pyStrip (strOrEmpty r.pi))).take 4,
          (pyStrip (strOrEmpty r.ps)).take 8⟩ := by
  unfold parse_csv_row exportRow
  rw [hch, hf, hb, hm]
  rw [if_neg ?hblank]
  case hblank =>
    simp only [List.all_cons, csvField_some, pyStrip_pyIntRepr,
      Bool.and_eq_true, decide_eq_true_eq]
    intro hcontra
    exact pyIntRepr_nonempty ch0 hcontra.1
  rw [if_neg (by simp)]
  simp only [csvField_some, parsePyInt_pyIntRepr]
  rw [if_neg (not_not_intro hr1), if_neg (by omega), if_neg (by omega),
    if_neg (not_not_intro hr4), if_neg hr5]

/-- Core of the round-trip: diffing a parsed exported row against its own
source record (unique channel numbers, strip-invariant and length-bounded
pi/ps) never flags a write. -/
theorem roundTrip_noWrite {st : RadioState} {chans : List ChannelRec}
    {M : Int} {r : ChannelRec} {imp : ImportedRow}
    (hnd : (chans.filterMap (fun c => c.channel)).Nodup)
    (hr : r ∈ chans)
    (hstrip_pi : pyStrip (strOrEmpty r.pi) = strOrEmpty r.pi)
    (hlen_pi : (strOrEmpty r.pi).length ≤ 4)
    (hstrip_ps : pyStrip (strOrEmpty r.ps) = strOrEmpty r.ps)
    (hlen_ps : (strOrEmpty r.ps).length ≤ 8)
    (h : parse_csv_row st M (exportRow r) = some imp) :
    rowNeedsWrite st chans imp = false := by
  obtain ⟨hch, hf, hb, hm, hpi, hps⟩ := parse_exportRow_inv h
  have hpi' : imp.pi = pyUpper (strOrEmpty r.pi) := by
    rw [hpi, hstrip_pi]
    apply List.take_of_length_le
    rw [pyUpper, List.length_map]
    exact hlen_pi
  have hps' : imp.ps = strOrEmpty r.ps := by
    rw [hps, hstrip_ps]
    exact List.take_of_length_le hlen_ps
  unfold rowNeedsWrite
  rw [lookup_unique hnd hr hch]
  simp only [hf, hb, hm, hpi', hps']
  simp

end Tef

namespace Tef

/-- Shape of the diff decision: flagged differences, overridden by the
redundant-skip check. -/
theorem bool_write_shape (a b : Bool) :
    (if a = true then (if b = true then false else true) else false)
      = (a && !b) := by
  cases a <;> cases b <;> rfl

/-- The per-row diff exactly as claim C1 words it (spec-side): channel
absent, write needed unless the row carries a skip frequency; channel
present, write needed iff freq, bandwidth, mono/stereo, PI
(case-insensitively: both sides upper-cased) or PS (case-sensitively)
differ, except that no write is needed when the row's frequency is a skip
frequency, the live channel is already skip-state-true, and bandwidth,
mono/stereo, PI and PS all match. -/
def claim_needsWrite (st : RadioState) (chans : List ChannelRec)
    (imp : ImportedRow) : Bool :=
  match lookupCurrent chans imp.channel with
  | none => ¬ is_skip_frequency st imp.freq_khz
  | some c =>
    let curr_pi := strOrEmpty c.pi
    let curr_ps := strOrEmpty c.ps
    let differs :=
      (c.freq_khz ≠ some imp.freq_khz) ||
      (c.bandwidth_code ≠ some imp.bandwidth_code) ||
      (c.mono_stereo_code ≠ some imp.mono_stereo_code) ||
      (pyUpper imp.pi ≠ pyUpper curr_pi) ||
      (imp.ps ≠ curr_ps)
    differs && !(is_skip_frequency st imp.freq_khz &&
      is_channel_skipped st imp.channel (some c) &&
      (c.bandwidth_code = some imp.bandwidth_code) &&
      (c.mono_stereo_code = some imp.mono_stereo_code) &&
      (pyUpper imp.pi = pyUpper curr_pi) && (imp.ps = curr_ps))

/-- The live channel 5 of claim C1's concrete example: frequency at the
device's skip value 500, hence already skip-state-true. -/
def rowFive : ChannelRec where
  channel := some 5
  freq_khz := some 500
  bandwidth_code := some 0
  mono_stereo_code := some 1

def cfgFive : ConfigData where
  memory_positions := some 10
  skip_frequency_value := some 500
  channels := [rowFive]

def sessionFive : RadioState where
  connected := true
  config := some cfgFive
  max_channels := some 10
  skip_freq_value := some 500

/-- The imported CSV of claim C1's example: channel 5 with frequency 0,
all other fields equal to the live channel. -/
def csvFive : List (List (List Char)) :=
  [CSV_HEADER_F,
   ["5".toList, "0".toList, "0".toList, "1".toList, [], []]]

/-- Claim C1: on every row the import parser accepts, the code's
`needs_write` decision coincides with the claim's description (including
the case-insensitive PI comparison and the redundant-skip override), and
the concrete channel-5 example produces an empty write list. -/
theorem claim_C1 :
    (∀ (st : RadioState) (cfg : ConfigData) (M : Int)
       (row : List (List Char)) (imp : ImportedRow),
      st.config = some cfg →
      parse_csv_row st M row = some imp →
      rowNeedsWrite st cfg.channels imp
        = claim_needsWrite st cfg.channels imp) ∧
    importCSV sessionFive csvFive = [] := by
  constructor
  · intro st cfg M row imp hst hparse
    have hpi := parse_pi_upper hparse
    unfold rowNeedsWrite claim_needsWrite
    cases hl : lookupCurrent cfg.channels imp.channel with
    | none => rfl
    | some c =>
      rw [hpi]
      exact bool_write_shape _ _
  · decide

/-- Witness for C1: the channel-5 example's parsed row, where both
decisions agree (and are `false`). -/
theorem claim_C1_witness :
    rowNeedsWrite sessionFive cfgFive.channels ⟨5, 0, 0, 1, [], []⟩
      = claim_needsWrite sessionFive cfgFive.channels ⟨5, 0, 0, 1, [], []⟩ :=
  claim_C1.1 sessionFive cfgFive 10
    ["5".toList, "0".toList, "0".toList, "1".toList, [], []]
    ⟨5, 0, 0, 1, [], []⟩ rfl (by decide)

end Tef

namespace Tef

/-- A live channel whose PS text carries a leading space (possible on the
wire: `2,100000,0,1,, X`). -/
def rowWS : ChannelRec where
  channel := some 2
  freq_khz := some 100000
  bandwidth_code := some 0
  mono_stereo_code := some 1
  ps := some (" X".toList)

def cfgWS : ConfigData where
  memory_positions := some 10
  channels := [rowWS]

def sessionWS : RadioState where
  connected := true
  config := some cfgWS
  max_channels := some 10
  skip_freq_value := some 500

/-- Claim C3 as frozen is refuted here: the import parser strips field
whitespace, so re-importing the export of a configuration whose PS text
has a leading space diffs PS `"X"` against live `" X"` and emits a write
for an unchanged configuration. -/
theorem claim_C3_counterexample :
    importCSV sessionWS (exportCSV cfgWS)
      = [⟨2, 100000, 0, 1, [], "X".toList⟩] ∧
    importCSV sessionWS (exportCSV cfgWS) ≠ [] := by
  constructor <;> decide

/-- Claim C3 amended: (a) for every loaded configuration with
pairwise-distinct channel numbers whose pi/ps fields are unchanged by
whitespace-stripping and within the 4- and 8-character limits, re-importing
its own CSV export produces an empty write list; (b) every record that
passes the import validations (channel in `[1, M]`, nonnegative frequency
and bandwidth, mono/stereo in {0,1}, not channel 1 with a skip frequency)
and whose pi is moreover already upper-case round-trips to an identical
record. -/
theorem claim_C3 :
    (∀ (st : RadioState) (cfg : ConfigData),
      st.config = some cfg →
      (cfg.channels.filterMap (fun c => c.channel)).Nodup →
      (∀ r ∈ cfg.channels,
        pyStrip (strOrEmpty r.pi) = strOrEmpty r.pi ∧
        pyStrip (strOrEmpty r.ps) = strOrEmpty r.ps ∧
        (strOrEmpty r.pi).length ≤ 4 ∧ (strOrEmpty r.ps).length ≤ 8) →
      importCSV st (exportCSV cfg) = []) ∧
    (∀ (st : RadioState) (M : Int) (r : ChannelRec) (ch0 f0 b0 m0 : Int),
      r.channel = some ch0 → r.freq_khz = some f0 →
      r.bandwidth_code = some b0 → r.mono_stereo_code = some m0 →
      1 ≤ ch0 → ch0 ≤ M → 0 ≤ f0 → 0 ≤ b0 → (m0 = 0 ∨ m0 = 1) →
      pyStrip (strOrEmpty r.pi) = strOrEmpty r.pi →
      pyUpper (strOrEmpty r.pi) = strOrEmpty r.pi →
      (strOrEmpty r.pi).length ≤ 4 →
      pyStrip (strOrEmpty r.ps) = strOrEmpty r.ps →
      (strOrEmpty r.ps).length ≤ 8 →
      ¬ (ch0 = 1 ∧ is_skip_frequency st f0 = true) →
      parse_csv_row st M (exportRow r)
        = some ⟨ch0, f0, b0, m0, strOrEmpty r.pi, strOrEmpty r.ps⟩) := by
  constructor
  · intro st cfg hst hnd hval
    unfold importCSV exportCSV
    show (if CSV_HEADER_F ≠ CSV_HEADER_F then []
      else importDiff st ((sortChannels cfg.channels).map exportRow)) = []
    rw [if_neg (by simp)]
    unfold importDiff
    rw [hst]
    cases hmx : st.max_channels with
    | none => rfl
    | some M =>
      rw [List.filter_eq_nil_iff]
      intro imp hmem
      obtain ⟨row, hrow, hparse⟩ := importRows_mem hmem
      obtain ⟨r, hrs, hre⟩ := List.mem_map.mp hrow
      subst hre
      have hrc : r ∈ cfg.channels :=
        (sortChannels_perm cfg.channels).mem_iff.mp hrs
      obtain ⟨w1, w2, w3, w4⟩ := hval r hrc
      have hnw := roundTrip_noWrite hnd hrc w1 w3 w2 w4 hparse
      simp [hnw]
  · intro st M r ch0 f0 b0 m0 hch hf hb hm h1 h2 h3 h4 h5 hsp hup hlp hsps
      hlps hskip
    rw [parse_exportRow hch hf hb hm ⟨h1, h2⟩ h3 h4 h5 hskip]
    rw [hsp, hup, hsps]
    rw [List.take_of_length_le hlp, List.take_of_length_le hlps]

/-- A well-formed configuration for the round-trip witness. -/
def rowAB : ChannelRec where
  channel := some 2
  freq_khz := some 100000
  bandwidth_code := some 0
  mono_stereo_code := some 1
  pi := some ("ABCD".toList)
  ps := some ("Xyz".toList)

def cfgAB : ConfigData where
  memory_positions := some 10
  channels := [rowAB]

def sessionAB : RadioState where
  connected := true
  config := some cfgAB
  max_channels := some 10
  skip_freq_value := some 500

/-- Witness for C3 amended at a concrete configuration: its export
re-imports to an empty write list and its record round-trips. -/
theorem claim_C3_witness :
    importCSV sessionAB (exportCSV cfgAB) = [] ∧
    parse_csv_row sessionAB 10 (exportRow rowAB)
      = some ⟨2, 100000, 0, 1, "ABCD".toList, "Xyz".toList⟩ :=
  ⟨claim_C3.1 sessionAB cfgAB rfl (by decide) (by decide),
   claim_C3.2 sessionAB 10 rowAB 2 100000 0 1 rfl rfl rfl rfl (by decide)
     (by decide) (by decide) (by decide) (Or.inr rfl) (by decide)
     (by decide) (by decide) (by decide) (by decide) (by decide)⟩

end Tef
